import Mathlib

/-!
Shallow embedding of `src/mac_server/server.py` (Hands-Free Office relay
server) and verification of its specification claims.

The server's mutable module globals (`LAST_EXECUTED`, `HISTORY`) become an
explicit `ServerState`; its JSON configuration tables (`INTENTS`, `KEYMAP`,
`SLOTS`), which are data files not shipped with the source, become
parameters.  Desktop actuation (`pyautogui`, `osascript`, `pyperclip`) is
recorded as a list of `Act` values instead of being performed.  Python
exceptions that can escape a handler are modelled with `Except PyErr`.
Rationals stand in for Python floats; the only float comparisons in the
source are against 0.25, which is exact.
-/

namespace HFO

/-! ## Basic data -/

/-- Slot dictionary: named string parameters extracted from the input. -/
abbrev Slots := List (String × String)

/-- Python `d.get(k, default)` over an association list. -/
def lookupD {α : Type} (kvs : List (String × α)) (k : String) (d : α) : α :=
  (kvs.lookup k).getD d

/-- Python `needle` being a prefix of `hay` (used for `str.startswith`). -/
def startsL : List Char → List Char → Bool
  | [], _ => true
  | _ :: _, [] => false
  | a :: as, b :: bs => a = b && startsL as bs

/-- Python `needle in hay` on strings: contiguous substring test. -/
def containsL (needle : List Char) : List Char → Bool
  | [] => startsL needle []
  | c :: rest => startsL needle (c :: rest) || containsL needle rest

/-- Python `s.startswith(p)`. -/
def strStarts (p s : String) : Bool := startsL p.data s.data

/-- Characters removed by Python `str.strip()` (ASCII whitespace). -/
def isSpaceChar (c : Char) : Bool :=
  (9 ≤ c.toNat && c.toNat ≤ 13) || c.toNat == 32

/-- Python `s.strip()` (computable by kernel reduction, unlike
`String.trim`). -/
def trimStr (s : String) : String :=
  String.mk (((s.data.dropWhile isSpaceChar).reverse.dropWhile isSpaceChar).reverse)

/-- Python `s.lower()` (ASCII lowering, as all inputs here are ASCII). -/
def toLowerStr (s : String) : String := String.mk (s.data.map Char.toLower)

/-! ## Regular expressions (model of Python `re`)

`re.match` anchors at the start of the string only: it succeeds whenever
some prefix of the input matches, leaving the rest unconsumed.  The matcher
below is a backtracking matcher in continuation-passing style with Python's
exploration order: alternation tries the left branch first and `star` is
greedy.  Named groups record the text they consumed; a later match of the
same group overwrites the earlier one, as in Python.  A fuel parameter
bounds the recursion depth. -/

inductive Regex where
  | eps : Regex
  | chr : Char → Regex
  | anyc : Regex
  | seq : Regex → Regex → Regex
  | alt : Regex → Regex → Regex
  | star : Regex → Regex
  | group : String → Regex → Regex
deriving DecidableEq, Repr

/-- Named-group captures accumulated during a match. -/
abbrev Caps := List (String × String)

/-- Set a named capture, overwriting any earlier value for the same name. -/
def setCap (caps : Caps) (n v : String) : Caps :=
  match caps with
  | [] => [(n, v)]
  | (m, w) :: rest => if m = n then (m, v) :: rest else (m, w) :: setCap rest n v

/-- Backtracking matcher.  `k` is the continuation receiving the unconsumed
input and the captures; the first success in Python's backtracking order is
returned. -/
def rmatchF : Nat → Regex → List Char → Caps →
    (List Char → Caps → Option (List Char × Caps)) → Option (List Char × Caps)
  | 0, _, _, _, _ => none
  | f + 1, r, s, caps, k =>
    match r with
    | .eps => k s caps
    | .chr c =>
      match s with
      | [] => none
      | a :: rest => if a = c then k rest caps else none
    | .anyc =>
      match s with
      | [] => none
      | a :: rest => if a = '\n' then none else k rest caps
    | .seq a b => rmatchF f a s caps (fun s2 caps2 => rmatchF f b s2 caps2 k)
    | .alt a b =>
      match rmatchF f a s caps k with
      | some x => some x
      | none => rmatchF f b s caps k
    | .star r0 =>
      match rmatchF f r0 s caps
          (fun s2 caps2 =>
            if s2.length < s.length then rmatchF f (.star r0) s2 caps2 k else none) with
      | some x => some x
      | none => k s caps
    | .group n r0 =>
      rmatchF f r0 s caps
        (fun s2 caps2 =>
          k s2 (setCap caps2 n (String.mk (s.take (s.length - s2.length)))))

/-- Size of a pattern, used to pick a generous fuel. -/
def rsize : Regex → Nat
  | .eps => 1
  | .chr _ => 1
  | .anyc => 1
  | .seq a b => rsize a + rsize b + 1
  | .alt a b => rsize a + rsize b + 1
  | .star r => rsize r + 1
  | .group _ r => rsize r + 1

/-- Fuel for matching pattern `p` against input of length `n`. -/
def matchFuel (p : Regex) (n : Nat) : Nat := (rsize p + 2) * (n + 2) + 4

/-- Python `re.match(p, s)` followed by `groupdict()`: anchored at the
start, a match of any prefix succeeds. -/
def reMatch (p : Regex) (s : String) : Option Caps :=
  (rmatchF (matchFuel p s.data.length) p s.data []
    (fun rest caps => some (rest, caps))).map (·.2)

/-- Full-string anchored matching (Python `re.fullmatch`): the reading of
"matches the full string" used by the specification. -/
def reFullMatch (p : Regex) (s : String) : Option Caps :=
  (rmatchF (matchFuel p s.data.length) p s.data []
    (fun rest caps => if rest.isEmpty then some (rest, caps) else none)).map (·.2)

/-- Literal-string pattern (a sequence of character atoms). -/
def strLit (s : String) : Regex :=
  s.data.foldr (fun c r => Regex.seq (Regex.chr c) r) Regex.eps

/-! ## Configuration tables (`intents.json`, `keymap.json`, `slots.json`) -/

/-- One intent's matching data: regex patterns plus literal examples. -/
structure IntentSpec where
  patterns : List Regex
  examples : List String
deriving DecidableEq, Repr

/-- The intent table, in iteration order. -/
abbrev Intents := List (String × IntentSpec)

/-- An action plan from `keymap.json`.  `intentTag` models the `"intent"`
key that `execute_intent` adds to the plan dictionary; `amount` models
`plan.get("amount", -600)`. -/
structure Plan where
  type : Option String
  intentTag : Option String
  keys : List String
  key : String
  amount : Option Int
deriving DecidableEq, Repr

/-- The keymap table: intent name to plan. -/
abbrev Keymap := List (String × Plan)

/-- The slot alias tables from `slots.json`. -/
structure SlotsCfg where
  apps : List (String × String)
  sites : List (String × String)
deriving DecidableEq, Repr

/-- `slot_app`: map a spoken alias to a real app name, defaulting to the
original (unlowered) argument. -/
def slot_app (sc : SlotsCfg) (name : String) : String :=
  let n := trimStr (toLowerStr name)
  lookupD sc.apps n name

/-- `slot_site`: map a site alias to a URL and normalize bare domains. -/
def slot_site (sc : SlotsCfg) (token : String) : String :=
  let t := trimStr (toLowerStr token)
  match sc.sites.lookup t with
  | some u => u
  | none =>
    if t = "" then ""
    else if !strStarts "http://" t && !strStarts "https://" t
        && containsL ['.'] t.data && !containsL [' '] t.data then
      "https://" ++ t
    else t

/-! ## Actuation log -/

/-- One desktop-automation side effect, recorded instead of performed. -/
inductive Act where
  | osascript : String → Act
  | sleep : ℚ → Act
  | clipboardCopy : String → Act
  | hotkey : List String → Act
  | press : String → Act
  | scroll : Int → Act
deriving DecidableEq, Repr

/-- `run_applescript`: one `osascript` invocation (its own exceptions are
swallowed by the source). -/
def run_applescript (script : String) : List Act := [Act.osascript script]

/-- The Gmail-compose AppleScript from `open_gmail_compose`. -/
def gmail_compose_script : String :=
  "\n    tell application \"Google Chrome\"\n        activate\n        if (count of windows) = 0 then\n            make new window\n        end if\n        set newTab to make new tab at end of tabs of front window\n        set URL of newTab to \"https://mail.google.com/mail/u/0/#inbox?compose=new\"\n    end tell\n    "

/-- `open_gmail_compose`: run the script, then settle for 1.2 seconds. -/
def open_gmail_compose : List Act :=
  run_applescript gmail_compose_script ++ [Act.sleep (6/5)]

/-- The Chrome new-tab AppleScript built around a URL. -/
def chrome_open_url_script (url : String) : String :=
  "\n        tell application \"Google Chrome\"\n            activate\n            if (count of windows) = 0 then make new window\n            set newTab to make new tab at end of tabs of front window\n            set URL of newTab to \"" ++ url ++ "\"\n        end tell\n        "

/-- The application-activation AppleScript. -/
def activate_app_script (app : String) : String :=
  "\n        tell application \"" ++ app ++ "\"\n            activate\n        end tell\n        "

/-- The Keynote start script from `open_presentation`. -/
def keynote_script : String :=
  "\n    tell application \"Keynote\"\n        activate\n        if (count of documents) = 0 then\n            if (count of recent documents) > 0 then\n                set recentDoc to item 1 of recent documents\n                open recentDoc\n            else\n                return \"no_recent\"\n            end if\n        end if\n        delay 0.4\n        start document 1\n    end tell\n    "

/-- `focused_typing`: paste text via the clipboard; does nothing on "". -/
def focused_typing (text : String) : List Act :=
  if text = "" then [] else [Act.clipboardCopy text, Act.hotkey ["command", "v"]]

/-- `next_slide`. -/
def next_slide : List Act := [Act.press "right"]

/-- `prev_slide`. -/
def prev_slide : List Act := [Act.press "left"]

/-! ## URL quoting (`urllib.parse.quote`) -/

/-- Hex digit (uppercase, as `quote` emits). -/
def hexDigit (n : Nat) : Char :=
  if n < 10 then Char.ofNat (48 + n) else Char.ofNat (55 + n)

/-- Percent-encode one byte. -/
def pquoteByte (b : Nat) : String := String.mk ['%', hexDigit (b / 16), hexDigit (b % 16)]

/-- Bytes `quote` leaves untouched: alphanumerics and `_ . - ~ /`. -/
def isSafeByte (b : Nat) : Bool :=
  (48 ≤ b && b ≤ 57) || (65 ≤ b && b ≤ 90) || (97 ≤ b && b ≤ 122)
    || b == 95 || b == 46 || b == 45 || b == 126 || b == 47

/-- `urllib.parse.quote` with the default safe set. -/
def pquote (s : String) : String :=
  (s.toUTF8.toList.map (fun b =>
    let n := b.toNat
    if isSafeByte n then String.mk [Char.ofNat n] else pquoteByte n)).foldl (· ++ ·) ""

/-- `_mailto_url`: build a `mailto:` URL with optional subject and body. -/
def mailto_url (toAddr subject body : String) : String :=
  let toS := trimStr toAddr
  let qs := (if subject ≠ "" then ["subject=" ++ pquote subject] else [])
      ++ (if body ≠ "" then ["body=" ++ pquote body] else [])
  let tail := if qs ≠ [] then "?" ++ String.intercalate "&" qs else ""
  "mailto:" ++ toS ++ tail

/-! ## Repeat-last state -/

/-- A recorded execution: `{"intent": ..., "plan": ..., "slots": ...}`. -/
structure Executed where
  intent : String
  plan : Plan
  slots : Slots
deriving DecidableEq, Repr

/-- The server's mutable globals: `LAST_EXECUTED` and `HISTORY`. -/
structure ServerState where
  lastExecuted : Option Executed
  history : List Executed
deriving DecidableEq, Repr

/-- `HISTORY.append` on a `deque(maxlen=10)`. -/
def dequeAppend (h : List Executed) (x : Executed) : List Executed :=
  (if h.length < 10 then h else h.drop (h.length + 1 - 10)) ++ [x]

/-- `REPEAT_BLOCKLIST`. -/
def REPEAT_BLOCKLIST : List String := ["send_email"]

/-- The status set excluded from recording in `execute_intent`. -/
def NO_RECORD_STATUSES : List String := ["noop", "unknown_intent", "bad_plan"]

/-! ## Plan executor -/

/-- Body of `repeat_last_action`, abstracted over the dispatch used to
replay the stored plan.  Reads the state, never writes it. -/
def repeat_logic (applyF : ServerState → Plan → Slots → String × List Act)
    (st : ServerState) : String × List Act :=
  match st.lastExecuted with
  | none => ("no_last_action", [])
  | some e =>
    if e.intent ∈ REPEAT_BLOCKLIST then ("repeat_blocked", [])
    else applyF st e.plan e.slots

/-- `_apply_plan`: low-level dispatch on the plan type, in source branch
order; returns the status string and the actuation performed.  It never
writes the repeat-last state (the source body contains no global
assignment), so it returns no state.  The fuel bounds the
`repeat_last` → `repeat_last_action` → `_apply_plan` recursion, which in
Python would consume stack frames; non-`repeat_last` plans never consume
fuel. -/
def apply_plan (sc : SlotsCfg) : Nat → ServerState → Plan → Slots → String × List Act
  | fuel, st, plan, slots =>
    if plan.type = some "applescript_gmail_compose" then
      ("opened_gmail", open_gmail_compose)
    else if plan.type = some "applescript_open_url" then
      let url := slot_site sc (lookupD slots "url" "")
      if url = "" then ("bad_url", [])
      else ("opened_url", run_applescript (chrome_open_url_script url))
    else if plan.type = some "applescript_open_app" then
      let app := slot_app sc (lookupD slots "app" "")
      if app = "" then ("bad_app", [])
      else ("opened_app", run_applescript (activate_app_script app))
    else if plan.type = some "applescript_keynote_start" then
      ("opened_presentation", run_applescript keynote_script)
    else if plan.intentTag = some "type_text" then
      let txt := trimStr (lookupD slots "text" "")
      if txt ≠ "" then ("typed", focused_typing txt) else ("typed_empty", [])
    else if plan.type = some "hotkey" then ("hotkey", [Act.hotkey plan.keys])
    else if plan.type = some "key" then ("key", [Act.press plan.key])
    else if plan.type = some "scroll" then ("scroll", [Act.scroll (plan.amount.getD (-600))])
    else if plan.type = some "repeat_last" then
      match fuel with
      | 0 => ("recursion_error", [])
      | f + 1 => repeat_logic (fun st2 p2 sl2 => apply_plan sc f st2 p2 sl2) st
    else if plan.type = some "mailto_compose" then
      let toAddr := trimStr (lookupD slots "to" "")
      let subject := trimStr (lookupD slots "subject" "")
      let body := trimStr (lookupD slots "body" "")
      if toAddr = "" then ("opened_gmail", open_gmail_compose)
      else
        ("mailto_composed",
          run_applescript (chrome_open_url_script (mailto_url toAddr subject body))
            ++ [Act.sleep 1])
    else ("noop", [])

/-- `repeat_last_action`: replay the stored action unless absent or
blocklisted. -/
def repeat_last_action (sc : SlotsCfg) (fuel : Nat) (st : ServerState) : String × List Act :=
  repeat_logic (fun st2 p2 sl2 => apply_plan sc fuel st2 p2 sl2) st

/-- The `plan = {**plan, "intent": intent}` annotation in `execute_intent`. -/
def annotate (p : Plan) (i : String) : Plan :=
  ⟨p.type, some i, p.keys, p.key, p.amount⟩

/-- `execute_intent`: look up the plan, annotate it, dispatch, and record
the last action unless the plan is `repeat_last`, the intent is
blocklisted, or the status is in `NO_RECORD_STATUSES`. -/
def execute_intent (km : Keymap) (sc : SlotsCfg) (fuel : Nat) (st : ServerState)
    (intent : String) (slots : Slots) : String × ServerState × List Act :=
  match km.lookup intent with
  | none => ("unknown_intent", st, [])
  | some plan0 =>
    let plan := annotate plan0 intent
    if plan.type = some "repeat_last" then
      let r := apply_plan sc fuel st plan slots
      (r.1, st, r.2)
    else
      let r := apply_plan sc fuel st plan slots
      if intent ∈ REPEAT_BLOCKLIST ∨ r.1 ∈ NO_RECORD_STATUSES then (r.1, st, r.2)
      else
        (r.1, ⟨some ⟨intent, plan, slots⟩, dequeAppend st.history ⟨intent, plan, slots⟩⟩, r.2)

/-! ## Fuzzy fallback (`IntentRouter`)

The TF-IDF vectorizer and cosine similarity are external library calls; the
similarity row `cosine_similarity(qv, X)[0]` is abstracted as a function
`sim` from the query to a list of scores, one per corpus example.  The
selection logic around it (`argmax`, threshold, guards) is translated from
the source. -/

/-- The router's data: threshold, lowered example corpus, parallel labels.
The vectorizer exists exactly when the corpus is nonempty. -/
structure Router where
  threshold : ℚ
  examples : List String
  labels : List String
deriving Repr

/-- `IntentRouter.__init__`: collect lowered examples and their intent
labels from the intent table, skipping the reserved `"meta"` entry. -/
def Router.build (intents : Intents) (threshold : ℚ) : Router :=
  let pairs := intents.foldl
    (fun acc p =>
      if p.1 = "meta" then acc else acc ++ p.2.examples.map (fun ex => (toLowerStr ex, p.1)))
    ([] : List (String × String))
  ⟨threshold, pairs.map (·.1), pairs.map (·.2)⟩

/-- `numpy.argmax`: index of the first maximal element (0 on empty input). -/
def argmaxIdx : List ℚ → Nat
  | [] => 0
  | x :: xs =>
    match xs with
    | [] => 0
    | _ :: _ =>
      let j := argmaxIdx xs
      if x < xs.getD j 0 then j + 1 else 0

/-- `IntentRouter.infer`: guard on empty corpus and empty input, then
return the argmax label when its score reaches the threshold. -/
def Router.infer (r : Router) (sim : String → List ℚ) (text : String) :
    Option String × ℚ :=
  if r.examples.isEmpty || text = "" then (none, 0)
  else
    let q := trimStr (toLowerStr text)
    if q = "" then (none, 0)
    else
      let sims := sim q
      let idx := argmaxIdx sims
      let score := sims.getD idx 0
      let label := r.labels.getD idx ""
      if r.threshold ≤ score then (some label, score) else (none, score)

/-- `ROUTER = IntentRouter(INTENTS, threshold=0.42)`. -/
def routerOf (intents : Intents) : Router := Router.build intents (42/100)

/-! ## Command resolution (`handle_command`) -/

/-- `groupdict` filtering: `{k: v for k, v in m.groupdict().items() if v}`
keeps only captures with a non-empty value. -/
def filterCaps (caps : Caps) : Slots := caps.filter (fun p => p.2 ≠ "")

/-- Inner loop of stage 1: first pattern of one intent that `re.match`es. -/
def patsMatch (pats : List Regex) (raw : String) : Option Caps :=
  match pats with
  | [] => none
  | p :: rest =>
    match reMatch p raw with
    | some caps => some caps
    | none => patsMatch rest raw

/-- Stage 1 of resolution: first intent, in table order and skipping
`"meta"`, one of whose patterns `re.match`es the input. -/
def regexStage (intents : Intents) (raw : String) : Option (String × Slots) :=
  match intents with
  | [] => none
  | (name, spec) :: rest =>
    if name = "meta" then regexStage rest raw
    else
      match patsMatch spec.patterns raw with
      | some caps => some (name, filterCaps caps)
      | none => regexStage rest raw

/-- Inner loop of stage 2: does any example of one intent occur literally
in the input (first hit breaks the loop)? -/
def exsHit (exs : List String) (raw : String) : Bool :=
  match exs with
  | [] => false
  | ex :: rest => if containsL ex.data raw.data then true else exsHit rest raw

/-- Stage 2 of resolution: first intent, in table order and skipping
`"meta"`, one of whose example phrases is a substring of the input. -/
def keywordStage (intents : Intents) (raw : String) : Option String :=
  match intents with
  | [] => none
  | (name, spec) :: rest =>
    if name = "meta" then keywordStage rest raw
    else if exsHit spec.examples raw then some name
    else keywordStage rest raw

/-! ## Wire protocol values -/

/-- Python exceptions that can escape a message handler. -/
inductive PyErr where
  | attrError : PyErr
  | valueError : PyErr
  | typeError : PyErr
deriving DecidableEq, Repr

/-- Parsed JSON values (the result of `json.loads`). -/
inductive Json where
  | null : Json
  | bool : Bool → Json
  | num : ℚ → Json
  | str : String → Json
  | arr : List Json → Json
  | obj : List (String × Json) → Json

/-- Python truthiness of a JSON value. -/
def jsonFalsy : Json → Bool
  | .null => true
  | .bool b => !b
  | .num q => q == 0
  | .str s => s == ""
  | .arr xs => xs.isEmpty
  | .obj kvs => kvs.isEmpty

/-- Python `j == s` for a string literal `s`: true only for equal strings. -/
def isStrEq (j : Json) (s : String) : Bool :=
  match j with
  | .str t => t == s
  | _ => false

/-- Decimal digits to a natural number. -/
def digitsVal (cs : List Char) : Nat :=
  cs.foldl (fun n c => n * 10 + (c.toNat - 48)) 0

/-- Unsigned decimal literal (integer part, optional fraction). -/
def parseUnsignedQ (cs : List Char) : Option ℚ :=
  let ip := cs.takeWhile Char.isDigit
  let rest := cs.dropWhile Char.isDigit
  match rest with
  | [] => if ip.isEmpty then none else some ((digitsVal ip : ℚ))
  | '.' :: frac =>
    if frac.all Char.isDigit && !(ip.isEmpty && frac.isEmpty) then
      some ((digitsVal ip : ℚ) + (digitsVal frac : ℚ) / ((10 : ℚ) ^ frac.length))
    else none
  | _ => none

/-- Decimal reading of `float(str)` (no exponents or specials; enough for
the inputs considered here, and `float("abc")` style failures). -/
def parseFloatQ (s : String) : Option ℚ :=
  match (trimStr s).data with
  | '-' :: rest => (parseUnsignedQ rest).map (fun q => -q)
  | '+' :: rest => parseUnsignedQ rest
  | cs => parseUnsignedQ cs

/-- Python `float(x)` on a JSON value: numbers and booleans convert,
numeric strings parse, anything else raises. -/
def pyFloat : Json → Except PyErr ℚ
  | .num q => .ok q
  | .bool b => .ok (if b then 1 else 0)
  | .str s =>
    match parseFloatQ s with
    | some q => .ok q
    | none => .error .valueError
  | _ => .error .typeError

/-- `(cmd or "").strip().lower()`, first half: Python replaces a falsy value
by `""`; `.strip()` on a remaining non-string raises `AttributeError`. -/
def pyCmdStr (cmd : Json) : Except PyErr String :=
  if jsonFalsy cmd then .ok ""
  else
    match cmd with
    | .str s => .ok s
    | _ => .error .attrError

/-! ## Handlers -/

/-- The server's read-only environment: the three config tables plus the
router inference call (which, being library-backed, may raise). -/
structure Env where
  intents : Intents
  keymap : Keymap
  slotsCfg : SlotsCfg
  inferFn : String → Except Unit (Option String × ℚ)

/-- `handle_command`: normalize the text, then regex stage, keyword stage,
and the guarded fuzzy fallback; any exception inside the fallback block is
caught and resolution degrades to `"unknown"`. -/
def handle_command (env : Env) (fuel : Nat) (st : ServerState) (cmd : Json) :
    Except PyErr (String × ServerState × List Act) :=
  match pyCmdStr cmd with
  | .error e => .error e
  | .ok s =>
    let raw := toLowerStr (trimStr s)
    match regexStage env.intents raw with
    | some (i, slots) => .ok (execute_intent env.keymap env.slotsCfg fuel st i slots)
    | none =>
      match keywordStage env.intents raw with
      | some i => .ok (execute_intent env.keymap env.slotsCfg fuel st i [])
      | none =>
        match env.inferFn raw with
        | .error _ => .ok ("unknown", st, [])
        | .ok (some i, _) => .ok (execute_intent env.keymap env.slotsCfg fuel st i [])
        | .ok (none, _) => .ok ("unknown", st, [])

/-- `handle_gesture`: threshold the roll of a tilt reading; any other kind
is ignored.  `float(payload.get("roll", 0.0))` can raise. -/
def handle_gesture (payload : Json) : Except PyErr (String × List Act) :=
  match payload with
  | .obj kvs =>
    if isStrEq (lookupD kvs "kind" (.str "")) "tilt" then
      match pyFloat (lookupD kvs "roll" (.num 0)) with
      | .error e => .error e
      | .ok roll =>
        if (1 : ℚ)/4 < roll then .ok ("gesture_next_slide", next_slide)
        else if roll < -((1 : ℚ)/4) then .ok ("gesture_prev_slide", prev_slide)
        else .ok ("gesture_ignored", [])
    else .ok ("gesture_ignored", [])
  | _ => .error .attrError

/-- The `ok:true` reply object. -/
def json_ok_reply (r : String) : Json := .obj [("ok", .bool true), ("result", .str r)]

/-- The `ok:false` reply object. -/
def json_err_reply (e : String) : Json := .obj [("ok", .bool false), ("error", .str e)]

/-- One iteration of `ws_handler`'s message loop.  `none` stands for a
message body `json.loads` rejects (answered with `bad_json`); `data.get` on
a parsed non-object raises `AttributeError`. -/
def ws_step (env : Env) (fuel : Nat) (st : ServerState) (msg : Option Json) :
    Except PyErr (Json × ServerState × List Act) :=
  match msg with
  | none => .ok (json_err_reply "bad_json", st, [])
  | some data =>
    match data with
    | .obj kvs =>
      if isStrEq (lookupD kvs "type" (.str "")) "command" then
        match handle_command env fuel st (lookupD kvs "text" (.str "")) with
        | .error e => .error e
        | .ok (res, st2, acts) => .ok (json_ok_reply res, st2, acts)
      else if isStrEq (lookupD kvs "type" (.str "")) "gesture" then
        match handle_gesture data with
        | .error e => .error e
        | .ok (res, acts) => .ok (json_ok_reply res, st, acts)
      else .ok (json_err_reply "unknown_type", st, [])
    | _ => .error .attrError

/-- `ws_handler`'s `async for` loop over a connection's messages: replies
accumulate until an uncaught exception terminates the connection. -/
def ws_loop (env : Env) (fuel : Nat) : ServerState → List (Option Json) →
    List Json × Option PyErr
  | _, [] => ([], none)
  | st, m :: rest =>
    match ws_step env fuel st m with
    | .error e => ([], some e)
    | .ok (reply, st2, _) =>
      let r := ws_loop env fuel st2 rest
      (reply :: r.1, r.2)

/-! ## Specification-side reference definitions

These restate the resolver stages in the specification's vocabulary
(first-match-wins over the table), to be proved equal to the translated
loops above. -/

/-- Stage 1 inner loop, spec reading: first pattern with a match. -/
def patsMatchSpec (pats : List Regex) (raw : String) : Option Caps :=
  pats.findSome? (fun p => reMatch p raw)

/-- Stage 1, spec reading: first non-`meta` intent in table order one of
whose patterns matches at the start of the input; slots are the non-empty
named captures. -/
def regexStageSpec (intents : Intents) (raw : String) : Option (String × Slots) :=
  (intents.filter (fun p => p.1 != "meta")).findSome?
    (fun p => (patsMatchSpec p.2.patterns raw).map (fun caps => (p.1, filterCaps caps)))

/-- Stage 2, spec reading: first non-`meta` intent in table order one of
whose example phrases occurs literally in the input. -/
def keywordStageSpec (intents : Intents) (raw : String) : Option String :=
  (intents.filter (fun p => p.1 != "meta")).findSome?
    (fun p => if p.2.examples.any (fun ex => containsL ex.data raw.data) then some p.1 else none)

/-- The score `infer` selects: the similarity of the argmax example. -/
def inferScore (sim : String → List ℚ) (q : String) : ℚ :=
  (sim q).getD (argmaxIdx (sim q)) 0

/-- The label `infer` selects: the label of the argmax example. -/
def inferLabel (r : Router) (sim : String → List ℚ) (q : String) : String :=
  r.labels.getD (argmaxIdx (sim q)) ""

/-! ## Concrete fixtures used by witnesses and counterexamples -/

/-- Empty environment: no intents, no keymap, no aliases, router yields no
match. -/
def env0 : Env := ⟨[], [], ⟨[], []⟩, fun _ => .ok (none, 0)⟩

/-- Fresh server state: nothing executed yet. -/
def st0 : ServerState := ⟨none, []⟩

/-- A keymap plan for opening a URL. -/
def planOpenUrl : Plan := ⟨some "applescript_open_url", none, [], "", none⟩

/-- A keymap plan for opening an application. -/
def planOpenApp : Plan := ⟨some "applescript_open_app", none, [], "", none⟩

/-- A keymap plan sending the right-arrow key. -/
def planKeyRight : Plan := ⟨some "key", none, [], "right", none⟩

/-- The repeat-last keymap plan. -/
def planRepeat : Plan := ⟨some "repeat_last", none, [], "", none⟩

/-- Environment with one regex-matched intent bound to a key plan. -/
def envNext : Env :=
  ⟨[("next_slide", ⟨[strLit "next"], []⟩)], [("next_slide", planKeyRight)],
    ⟨[], []⟩, fun _ => .ok (none, 0)⟩

/-- Environment with one example-phrase intent and no keymap. -/
def envHello : Env :=
  ⟨[("greet", ⟨[], ["hello"]⟩)], [], ⟨[], []⟩, fun _ => .ok (none, 0)⟩

/-- Environment whose router call raises. -/
def envErr : Env := ⟨[], [], ⟨[], []⟩, fun _ => .error ()⟩

/-- Intent table with a single example phrase, for router fixtures. -/
def intents6 : Intents := [("greet", ⟨[], ["hello"]⟩)]

/-- A gesture message whose roll is a non-numeric string. -/
def gestureBadRoll : Json :=
  .obj [("type", .str "gesture"), ("kind", .str "tilt"), ("roll", .str "abc")]

/-- A state whose recorded action is a key plan under intent
`"next_slide"`. -/
def stKey : ServerState := ⟨some ⟨"next_slide", annotate planKeyRight "next_slide", []⟩, []⟩

/-! ## Helper lemmas -/

/-- `(cmd or "").strip()` succeeds on any string payload, yielding it. -/
lemma pyCmdStr_str (s : String) : pyCmdStr (.str s) = .ok s := by
  by_cases h : s = ""
  · simp [pyCmdStr, jsonFalsy, h]
  · simp [pyCmdStr, jsonFalsy, h]

/-- A prefix test succeeds exactly on genuine list prefixes. -/
lemma startsL_iff : ∀ (n h : List Char), startsL n h = true ↔ ∃ t, h = n ++ t := by
  intro n
  induction n with
  | nil => intro h; simp [startsL]
  | cons a as ih =>
    intro h
    cases h with
    | nil => simp [startsL]
    | cons b bs =>
      simp only [startsL, Bool.and_eq_true, decide_eq_true_eq, ih bs]
      constructor
      · rintro ⟨rfl, t, rfl⟩; exact ⟨t, rfl⟩
      · rintro ⟨t, he⟩
        injection he with h1 h2
        exact ⟨h1.symm, t, h2⟩

/-- The substring test succeeds exactly on contiguous substrings. -/
lemma containsL_iff : ∀ (n h : List Char),
    containsL n h = true ↔ ∃ pre post, h = pre ++ (n ++ post) := by
  intro n h
  induction h with
  | nil =>
    rw [show containsL n [] = startsL n [] from rfl, startsL_iff]
    constructor
    · rintro ⟨t, ht⟩; exact ⟨[], t, ht⟩
    · rintro ⟨pre, post, hp⟩
      refine ⟨post, ?_⟩
      cases pre with
      | nil => simpa using hp
      | cons d ds => simp at hp
  | cons c rest ih =>
    rw [show containsL n (c :: rest) = (startsL n (c :: rest) || containsL n rest) from rfl,
      Bool.or_eq_true, startsL_iff, ih]
    constructor
    · rintro (⟨t, ht⟩ | ⟨pre, post, hp⟩)
      · exact ⟨[], t, ht⟩
      · exact ⟨c :: pre, post, by rw [hp]; rfl⟩
    · rintro ⟨pre, post, hp⟩
      cases pre with
      | nil => exact Or.inl ⟨post, by simpa using hp⟩
      | cons d ds =>
        right
        injection hp with h1 h2
        exact ⟨ds, post, h2⟩

/-- The early-exit example loop agrees with `List.any`. -/
lemma exsHit_eq_any (raw : String) : ∀ exs,
    exsHit exs raw = exs.any (fun ex => containsL ex.data raw.data) := by
  intro exs
  induction exs with
  | nil => rfl
  | cons e rest ih =>
    cases h : containsL e.data raw.data <;> simp [exsHit, h, ih]

/-- Stage 1's loop agrees with its first-match-wins restatement
(inner loop). -/
lemma patsMatch_eq_spec (raw : String) : ∀ pats,
    patsMatch pats raw = patsMatchSpec pats raw := by
  intro pats
  induction pats with
  | nil => rfl
  | cons p rest ih =>
    cases h : reMatch p raw <;> simp [patsMatch, patsMatchSpec, List.findSome?, h, ih]

/-- Stage 1's loop agrees with its first-match-wins restatement. -/
lemma regexStage_eq_spec (raw : String) : ∀ intents,
    regexStage intents raw = regexStageSpec intents raw := by
  intro intents
  induction intents with
  | nil => rfl
  | cons p rest ih =>
    obtain ⟨name, spec⟩ := p
    by_cases hm : name = "meta"
    · subst hm
      simp only [regexStage, if_pos rfl, regexStageSpec, List.filter_cons,
        show (("meta" : String) != "meta") = false from rfl, Bool.false_eq_true, if_false]
      exact ih
    · have hb : (name != "meta") = true := bne_iff_ne.mpr hm
      have hL : regexStage ((name, spec) :: rest) raw
          = (match patsMatch spec.patterns raw with
             | some caps => some (name, filterCaps caps)
             | none => regexStage rest raw) := by
        rw [show regexStage ((name, spec) :: rest) raw
            = (if name = "meta" then regexStage rest raw
               else
                 match patsMatch spec.patterns raw with
                 | some caps => some (name, filterCaps caps)
                 | none => regexStage rest raw) from rfl, if_neg hm]
      have hfil : List.filter (fun p => (p.1 != "meta")) ((name, spec) :: rest)
          = (name, spec) :: List.filter (fun p => (p.1 != "meta")) rest := by
        rw [List.filter_cons, if_pos hb]
      rw [hL, patsMatch_eq_spec raw spec.patterns]
      cases h : patsMatchSpec spec.patterns raw with
      | none =>
        have hR : regexStageSpec ((name, spec) :: rest) raw = regexStageSpec rest raw := by
          unfold regexStageSpec
          rw [hfil, List.findSome?_cons_of_isNone]
          simp [h]
        rw [hR]
        exact ih
      | some caps =>
        have hR : regexStageSpec ((name, spec) :: rest) raw
            = some (name, filterCaps caps) := by
          unfold regexStageSpec
          rw [hfil, List.findSome?_cons_of_isSome]
          · show (patsMatchSpec spec.patterns raw).map _ = _
            rw [h]
            rfl
          · simp [h]
        rw [hR]

/-- Stage 1 only produces slots with non-empty values. -/
lemma regexStage_slots_ne (raw : String) : ∀ intents i sl,
    regexStage intents raw = some (i, sl) → ∀ pr, pr ∈ sl → pr.2 ≠ "" := by
  intro intents
  induction intents with
  | nil => intro i sl h; simp [regexStage] at h
  | cons p rest ih =>
    intro i sl h
    obtain ⟨name, spec⟩ := p
    by_cases hm : name = "meta"
    · rw [regexStage, if_pos hm] at h
      exact ih i sl h
    · rw [regexStage, if_neg hm] at h
      cases hp : patsMatch spec.patterns raw with
      | none =>
        rw [hp] at h
        exact ih i sl h
      | some caps =>
        rw [hp] at h
        simp only [Option.some.injEq, Prod.mk.injEq] at h
        intro pr hpr
        rw [← h.2] at hpr
        have := (List.mem_filter.mp hpr).2
        exact of_decide_eq_true this

/-- Stage 2's loop agrees with its first-match-wins restatement. -/
lemma keywordStage_eq_spec (raw : String) : ∀ intents,
    keywordStage intents raw = keywordStageSpec intents raw := by
  intro intents
  induction intents with
  | nil => rfl
  | cons p rest ih =>
    obtain ⟨name, spec⟩ := p
    by_cases hm : name = "meta"
    · subst hm
      simp only [keywordStage, if_pos rfl, keywordStageSpec, List.filter_cons,
        show (("meta" : String) != "meta") = false from rfl, Bool.false_eq_true, if_false]
      exact ih
    · have hb : (name != "meta") = true := bne_iff_ne.mpr hm
      have hL : keywordStage ((name, spec) :: rest) raw
          = (if exsHit spec.examples raw then some name else keywordStage rest raw) := by
        rw [show keywordStage ((name, spec) :: rest) raw
            = (if name = "meta" then keywordStage rest raw
               else if exsHit spec.examples raw then some name
               else keywordStage rest raw) from rfl, if_neg hm]
      have hfil : List.filter (fun p => (p.1 != "meta")) ((name, spec) :: rest)
          = (name, spec) :: List.filter (fun p => (p.1 != "meta")) rest := by
        rw [List.filter_cons, if_pos hb]
      rw [hL, exsHit_eq_any raw]
      cases h : spec.examples.any (fun ex => containsL ex.data raw.data) with
      | false =>
        have hR : keywordStageSpec ((name, spec) :: rest) raw
            = keywordStageSpec rest raw := by
          unfold keywordStageSpec
          rw [hfil, List.findSome?_cons_of_isNone]
          simp [h]
        rw [hR]
        simp only [Bool.false_eq_true, if_false]
        exact ih
      | true =>
        have hR : keywordStageSpec ((name, spec) :: rest) raw = some name := by
          unfold keywordStageSpec
          rw [hfil, List.findSome?_cons_of_isSome]
          · show (if spec.examples.any (fun ex => containsL ex.data raw.data)
                then some name else none) = _
            rw [h]
            rfl
          · simp [h]
        rw [hR]
        rfl

/-- A stage-1 hit makes `handle_command` dispatch that intent and slots. -/
lemma handle_command_regex_hit (env : Env) (fuel : Nat) (st : ServerState) (s : String)
    (i : String) (sl : Slots)
    (h : regexStage env.intents (toLowerStr (trimStr s)) = some (i, sl)) :
    handle_command env fuel st (.str s)
      = .ok (execute_intent env.keymap env.slotsCfg fuel st i sl) := by
  simp [handle_command, pyCmdStr_str, h]

/-- A stage-2 hit (after stage 1 misses) dispatches with empty slots. -/
lemma handle_command_keyword_hit (env : Env) (fuel : Nat) (st : ServerState) (s : String)
    (i : String)
    (h1 : regexStage env.intents (toLowerStr (trimStr s)) = none)
    (h2 : keywordStage env.intents (toLowerStr (trimStr s)) = some i) :
    handle_command env fuel st (.str s)
      = .ok (execute_intent env.keymap env.slotsCfg fuel st i []) := by
  simp [handle_command, pyCmdStr_str, h1, h2]

/-- A raising router call after both stages miss degrades to "unknown". -/
lemma handle_command_router_err (env : Env) (fuel : Nat) (st : ServerState) (s : String)
    (h1 : regexStage env.intents (toLowerStr (trimStr s)) = none)
    (h2 : keywordStage env.intents (toLowerStr (trimStr s)) = none)
    (h3 : env.inferFn (toLowerStr (trimStr s)) = .error ()) :
    handle_command env fuel st (.str s) = .ok ("unknown", st, []) := by
  simp [handle_command, pyCmdStr_str, h1, h2, h3]

/-- `infer` yields no match with score 0 on an empty corpus or empty
input. -/
lemma infer_guard (r : Router) (sim : String → List ℚ) (text : String)
    (h : r.examples = [] ∨ text = "" ∨ trimStr (toLowerStr text) = "") :
    r.infer sim text = (none, 0) := by
  rcases h with h | h | h
  · simp [Router.infer, h]
  · simp [Router.infer, h]
  · unfold Router.infer
    split_ifs with hA
    · rfl
    · simp [h]

/-- `infer` thresholds the argmax score at `r.threshold`. -/
lemma infer_threshold (r : Router) (sim : String → List ℚ) (text : String)
    (h1 : r.examples ≠ []) (h2 : text ≠ "") (h3 : trimStr (toLowerStr text) ≠ "") :
    (r.threshold ≤ inferScore sim (trimStr (toLowerStr text)) →
      r.infer sim text = (some (inferLabel r sim (trimStr (toLowerStr text))),
        inferScore sim (trimStr (toLowerStr text)))) ∧
    (inferScore sim (trimStr (toLowerStr text)) < r.threshold →
      r.infer sim text = (none, inferScore sim (trimStr (toLowerStr text)))) := by
  have he : r.examples.isEmpty = false := by
    cases hx : r.examples with
    | nil => exact absurd hx h1
    | cons a l => rfl
  have hmain : r.infer sim text
      = (if r.threshold ≤ inferScore sim (trimStr (toLowerStr text))
         then (some (inferLabel r sim (trimStr (toLowerStr text))),
               inferScore sim (trimStr (toLowerStr text)))
         else (none, inferScore sim (trimStr (toLowerStr text)))) := by
    unfold Router.infer
    simp only [he, Bool.false_or, h2, decide_False, Bool.false_eq_true, if_false, h3,
      ne_eq, ite_false]
    rfl
  constructor <;> intro hth
  · rw [hmain, if_pos hth]
  · rw [hmain, if_neg (not_le.mpr hth)]

/-- The argmax really selects a maximal score. -/
lemma argmaxIdx_le : ∀ (l : List ℚ) (j : Nat), j < l.length →
    l.getD j 0 ≤ l.getD (argmaxIdx l) 0 := by
  intro l
  induction l with
  | nil => intro j hj; simp at hj
  | cons x xs ih =>
    intro j hj
    cases xs with
    | nil =>
      have : j = 0 := by
        simp only [List.length_cons, List.length_nil] at hj
        omega
      subst this
      simp [argmaxIdx]
    | cons y ys =>
      rw [show argmaxIdx (x :: y :: ys)
          = (if x < (y :: ys).getD (argmaxIdx (y :: ys)) 0
             then argmaxIdx (y :: ys) + 1 else 0) from rfl]
      by_cases hlt : x < (y :: ys).getD (argmaxIdx (y :: ys)) 0
      · rw [if_pos hlt]
        cases j with
        | zero => simpa using le_of_lt hlt
        | succ k =>
          simp only [List.getD_cons_succ]
          exact ih k (by simpa using hj)
      · rw [if_neg hlt]
        push_neg at hlt
        cases j with
        | zero => simp
        | succ k =>
          simp only [List.getD_cons_succ, List.getD_cons_zero]
          exact le_trans (ih k (by simpa using hj)) hlt

/-! ## Claims -/

/-- C4 (confirmed): `repeat_last_action` returns `"no_last_action"` when
nothing is recorded, `"repeat_blocked"` with no actuation when the recorded
intent is blocklisted, and otherwise re-invokes the low-level dispatch on
the stored plan and slots, returning exactly its status. -/
theorem repeat_last_action_spec (sc : SlotsCfg) (fuel : Nat) (st : ServerState) :
    (st.lastExecuted = none → repeat_last_action sc fuel st = ("no_last_action", [])) ∧
    (∀ e, st.lastExecuted = some e → e.intent ∈ REPEAT_BLOCKLIST →
      repeat_last_action sc fuel st = ("repeat_blocked", [])) ∧
    (∀ e, st.lastExecuted = some e → e.intent ∉ REPEAT_BLOCKLIST →
      repeat_last_action sc fuel st = apply_plan sc fuel st e.plan e.slots) := by
  refine ⟨fun h => ?_, fun e he hb => ?_, fun e he hb => ?_⟩
  · simp [repeat_last_action, repeat_logic, h]
  · simp [repeat_last_action, repeat_logic, he, hb]
  · simp [repeat_last_action, repeat_logic, he, hb]

/-- Witness for C4: on the fresh state, replay reports no last action. -/
theorem repeat_last_action_spec_witness :
    repeat_last_action ⟨[], []⟩ 1 st0 = ("no_last_action", []) :=
  (repeat_last_action_spec ⟨[], []⟩ 1 st0).1 rfl

/-- C5 (confirmed): executing an intent whose plan type is `repeat_last`
leaves the recorded last action and the history unchanged, for every prior
state; the replay path contains no state write, so nothing on it can
overwrite the record. -/
theorem repeat_plan_never_recorded (km : Keymap) (sc : SlotsCfg) (fuel : Nat)
    (st : ServerState) (i : String) (sl : Slots) (p : Plan)
    (hp : km.lookup i = some p) (ht : p.type = some "repeat_last") :
    (execute_intent km sc fuel st i sl).2.1 = st := by
  simp [execute_intent, hp, annotate, ht]

/-- Witness for C5: repeating over a recorded key action leaves the state
intact. -/
theorem repeat_plan_never_recorded_witness :
    (execute_intent [("repeat", planRepeat)] ⟨[], []⟩ 2 stKey "repeat" []).2.1 = stKey :=
  repeat_plan_never_recorded [("repeat", planRepeat)] ⟨[], []⟩ 2 stKey "repeat" []
    planRepeat rfl rfl

/-- C7 (confirmed): a tilt gesture with numeric roll is classified
`advance` exactly when roll > 0.25, `retreat` exactly when roll < -0.25,
and `ignored` otherwise; both comparisons are strict, so roll = 0.25 is
ignored. -/
theorem handle_gesture_tilt (kvs : List (String × Json)) (q : ℚ)
    (hk : lookupD kvs "kind" (.str "") = .str "tilt")
    (hr : lookupD kvs "roll" (.num 0) = .num q) :
    handle_gesture (.obj kvs) =
      .ok (if (1 : ℚ)/4 < q then ("gesture_next_slide", [Act.press "right"])
        else if q < -((1 : ℚ)/4) then ("gesture_prev_slide", [Act.press "left"])
        else ("gesture_ignored", ([] : List Act))) := by
  simp only [handle_gesture, hk, hr, isStrEq, pyFloat, next_slide, prev_slide,
    beq_self_eq_true, if_true]
  split_ifs <;> rfl

/-- Witness for C7: roll exactly 0.25 is ignored (strict boundary). -/
theorem handle_gesture_tilt_witness :
    handle_gesture (.obj [("kind", .str "tilt"), ("roll", .num ((1 : ℚ)/4))])
      = .ok ("gesture_ignored", []) := by
  have h := handle_gesture_tilt [("kind", .str "tilt"), ("roll", .num ((1 : ℚ)/4))]
    ((1 : ℚ)/4) rfl rfl
  rw [h, if_neg (by norm_num), if_neg (by norm_num)]

/-- C10 (confirmed): a gesture payload whose `kind` is missing or anything
other than the string `"tilt"` is answered `"gesture_ignored"` with no
actuation, whatever the other fields hold. -/
theorem handle_gesture_non_tilt (kvs : List (String × Json))
    (h : isStrEq (lookupD kvs "kind" (.str "")) "tilt" = false) :
    handle_gesture (.obj kvs) = .ok ("gesture_ignored", []) := by
  simp [handle_gesture, h]

/-- Witness for C10: a `"shake"` gesture with a large roll is ignored. -/
theorem handle_gesture_non_tilt_witness :
    handle_gesture (.obj [("kind", .str "shake"), ("roll", .num 9)])
      = .ok ("gesture_ignored", []) :=
  handle_gesture_non_tilt [("kind", .str "shake"), ("roll", .num 9)] rfl

/-- C3 (code_bug): a single gesture message whose roll is the string
`"abc"` makes the handler raise `ValueError` out of `float(...)`; the
exception escapes `ws_handler`, so the connection loop stops and later
messages on the connection get no reply, contradicting the recover-locally
policy. -/
theorem ws_crash_on_string_roll :
    ws_step env0 1 st0 (some gestureBadRoll) = .error .valueError ∧
    ws_loop env0 1 st0 [some gestureBadRoll, some (.obj [("type", .str "x")])]
      = ([], some .valueError) :=
  ⟨rfl, rfl⟩

/-- C9 counterexample: a parseable message that is not a JSON object (here
the array `[]`) has no `type` of `"command"`/`"gesture"`, yet the handler
raises `AttributeError` on `data.get` instead of replying
`{"ok":false,"error":"unknown_type"}`. -/
theorem ws_nonobject_raises :
    ws_step env0 1 st0 (some (.arr [])) = .error .attrError :=
  rfl

/-- C1 counterexample: executing an `applescript_open_url` intent with no
url slot returns the bad-input status `"bad_url"` and nevertheless
overwrites the last-action record (initially empty) and appends to the
history. -/
theorem execute_intent_bad_url_records :
    execute_intent [("open_site", planOpenUrl)] ⟨[], []⟩ 1 st0 "open_site" []
      = ("bad_url",
          ⟨some ⟨"open_site", annotate planOpenUrl "open_site", []⟩,
            [⟨"open_site", annotate planOpenUrl "open_site", []⟩]⟩,
          []) :=
  rfl

/-- C1 (amended): the last action and history are updated exactly when the
plan exists, its type is not `repeat_last`, the intent is not blocklisted,
and the returned status is not in `{"noop","unknown_intent","bad_plan"}`;
bad-input statuses such as `"bad_url"`/`"bad_app"` are not in that set, so
they do update the record. -/
theorem execute_intent_recording (km : Keymap) (sc : SlotsCfg) (fuel : Nat)
    (st : ServerState) (i : String) (sl : Slots) :
    (km.lookup i = none → execute_intent km sc fuel st i sl = ("unknown_intent", st, [])) ∧
    (∀ p, km.lookup i = some p →
      ((annotate p i).type = some "repeat_last" →
        execute_intent km sc fuel st i sl
          = ((apply_plan sc fuel st (annotate p i) sl).1, st,
              (apply_plan sc fuel st (annotate p i) sl).2)) ∧
      ((annotate p i).type ≠ some "repeat_last" →
        ((i ∈ REPEAT_BLOCKLIST ∨ (apply_plan sc fuel st (annotate p i) sl).1 ∈ NO_RECORD_STATUSES →
          execute_intent km sc fuel st i sl
            = ((apply_plan sc fuel st (annotate p i) sl).1, st,
                (apply_plan sc fuel st (annotate p i) sl).2)) ∧
        (i ∉ REPEAT_BLOCKLIST ∧ (apply_plan sc fuel st (annotate p i) sl).1 ∉ NO_RECORD_STATUSES →
          execute_intent km sc fuel st i sl
            = ((apply_plan sc fuel st (annotate p i) sl).1,
                ⟨some ⟨i, annotate p i, sl⟩, dequeAppend st.history ⟨i, annotate p i, sl⟩⟩,
                (apply_plan sc fuel st (annotate p i) sl).2))))) := by
  constructor
  · intro h; simp [execute_intent, h]
  · intro p hp
    constructor
    · intro ht; simp [execute_intent, hp, ht]
    · intro ht
      constructor
      · intro hc; simp [execute_intent, hp, ht, hc]
      · rintro ⟨h1, h2⟩; simp [execute_intent, hp, ht, h1, h2]

/-- Witness for C1 (amended): a successful `open_app` execution is
recorded as the new last action. -/
theorem execute_intent_recording_witness :
    execute_intent [("open_app", planOpenApp)] ⟨[], []⟩ 1 st0 "open_app" [("app", "safari")]
      = ((apply_plan ⟨[], []⟩ 1 st0 (annotate planOpenApp "open_app") [("app", "safari")]).1,
          ⟨some ⟨"open_app", annotate planOpenApp "open_app", [("app", "safari")]⟩,
            dequeAppend st0.history ⟨"open_app", annotate planOpenApp "open_app", [("app", "safari")]⟩⟩,
          (apply_plan ⟨[], []⟩ 1 st0 (annotate planOpenApp "open_app") [("app", "safari")]).2) :=
  (((execute_intent_recording [("open_app", planOpenApp)] ⟨[], []⟩ 1 st0 "open_app"
    [("app", "safari")]).2 planOpenApp rfl).2 (by decide)).2 ⟨by decide, by decide⟩

/-- C9 (amended): `None` from `json.loads` failure is answered `bad_json`;
an object message whose `type` is neither `"command"` nor `"gesture"` is
answered `unknown_type`; command and gesture object messages whose handling
raises no exception are answered `{"ok":true,"result":...}`; after any
non-raising reply the loop continues with the remaining messages. -/
theorem ws_step_replies (env : Env) (fuel : Nat) (st : ServerState) :
    (ws_step env fuel st none = .ok (json_err_reply "bad_json", st, [])) ∧
    (∀ kvs, isStrEq (lookupD kvs "type" (.str "")) "command" = false →
      isStrEq (lookupD kvs "type" (.str "")) "gesture" = false →
      ws_step env fuel st (some (.obj kvs)) = .ok (json_err_reply "unknown_type", st, [])) ∧
    (∀ kvs res st2 acts, isStrEq (lookupD kvs "type" (.str "")) "command" = true →
      handle_command env fuel st (lookupD kvs "text" (.str "")) = .ok (res, st2, acts) →
      ws_step env fuel st (some (.obj kvs)) = .ok (json_ok_reply res, st2, acts)) ∧
    (∀ kvs res acts, isStrEq (lookupD kvs "type" (.str "")) "command" = false →
      isStrEq (lookupD kvs "type" (.str "")) "gesture" = true →
      handle_gesture (.obj kvs) = .ok (res, acts) →
      ws_step env fuel st (some (.obj kvs)) = .ok (json_ok_reply res, st, acts)) ∧
    (∀ m rest reply st2 acts, ws_step env fuel st m = .ok (reply, st2, acts) →
      ws_loop env fuel st (m :: rest)
        = (reply :: (ws_loop env fuel st2 rest).1, (ws_loop env fuel st2 rest).2)) := by
  refine ⟨rfl, fun kvs h1 h2 => ?_, fun kvs res st2 acts h1 h2 => ?_,
    fun kvs res acts h1 h2 h3 => ?_, fun m rest reply st2 acts h => ?_⟩
  · simp [ws_step, h1, h2]
  · simp [ws_step, h1, h2]
  · simp [ws_step, h1, h2, h3]
  · simp [ws_loop, h]

/-- Witness for C9 (amended): an object message of unknown type gets the
`unknown_type` error reply. -/
theorem ws_step_replies_witness :
    ws_step env0 1 st0 (some (.obj [("type", .str "bogus")]))
      = .ok (json_err_reply "unknown_type", st0, []) :=
  (ws_step_replies env0 1 st0).2.1 [("type", .str "bogus")] rfl rfl

/-- C2 counterexample: with the single pattern `next` for intent
`next_slide`, the input `"next slide"` does not match the pattern as a full
string, yet stage 1 resolves to `next_slide` because `re.match` only
anchors at the start. -/
theorem regex_wins_without_full_match :
    reFullMatch (strLit "next") "next slide" = none ∧
    regexStage [("next_slide", ⟨[strLit "next"], []⟩)] "next slide"
      = some ("next_slide", []) :=
  ⟨rfl, rfl⟩

/-- C2 (amended): stage 1 tries each intent's patterns in table order
(skipping `meta`) and the first pattern that matches at the start of the
lower-cased, trimmed input — a prefix match, not necessarily the full
string — wins; the slots are exactly the named captures with non-empty
values, and a hit dispatches that intent with those slots. -/
theorem regex_resolution_amended :
    (∀ intents raw, regexStage intents raw = regexStageSpec intents raw) ∧
    (∀ intents raw i sl, regexStage intents raw = some (i, sl) →
      ∀ pr, pr ∈ sl → pr.2 ≠ "") ∧
    (∀ env fuel st s i sl,
      regexStage env.intents (toLowerStr (trimStr s)) = some (i, sl) →
      handle_command env fuel st (.str s)
        = .ok (execute_intent env.keymap env.slotsCfg fuel st i sl)) :=
  ⟨fun intents raw => regexStage_eq_spec raw intents,
   fun intents raw i sl h => regexStage_slots_ne raw intents i sl h,
   fun env fuel st s i sl h => handle_command_regex_hit env fuel st s i sl h⟩

/-- Witness for C2 (amended): `"Next Slide"` normalizes, stage 1 prefix
matches, and the intent is dispatched with empty slots. -/
theorem regex_resolution_amended_witness :
    handle_command envNext 1 st0 (.str "Next Slide")
      = .ok (execute_intent envNext.keymap envNext.slotsCfg 1 st0 "next_slide" []) :=
  regex_resolution_amended.2.2 envNext 1 st0 "Next Slide" "next_slide" [] rfl

/-- C8 (confirmed): when no regex matched, stage 2 scans intents in table
iteration order and returns the intent of the first example phrase that is
a literal substring of the lower-cased, trimmed input, dispatching it with
empty slots; the substring test means exactly contiguous-substring
occurrence. -/
theorem keyword_resolution_spec :
    (∀ n h, containsL n h = true ↔ ∃ pre post, h = pre ++ (n ++ post)) ∧
    (∀ intents raw, keywordStage intents raw = keywordStageSpec intents raw) ∧
    (∀ env fuel st s i,
      regexStage env.intents (toLowerStr (trimStr s)) = none →
      keywordStage env.intents (toLowerStr (trimStr s)) = some i →
      handle_command env fuel st (.str s)
        = .ok (execute_intent env.keymap env.slotsCfg fuel st i [])) :=
  ⟨containsL_iff,
   fun intents raw => keywordStage_eq_spec raw intents,
   fun env fuel st s i h1 h2 => handle_command_keyword_hit env fuel st s i h1 h2⟩

/-- Witness for C8: `"Say hello please"` contains the example `"hello"`, no
regex matches, and the `greet` intent is dispatched with empty slots. -/
theorem keyword_resolution_spec_witness :
    handle_command envHello 1 st0 (.str "Say hello please")
      = .ok (execute_intent envHello.keymap envHello.slotsCfg 1 st0 "greet" []) :=
  keyword_resolution_spec.2.2 envHello 1 st0 "Say hello please" "greet" rfl rfl

/-- C6 (confirmed): the fallback returns no match with score 0 when the
corpus or the input is empty; otherwise it returns the argmax label exactly
when its score reaches the 0.42 threshold (no match below); the argmax
really is a best-scoring example; and an error raised by the router call
inside `handle_command` is caught, degrading resolution to `"unknown"`. -/
theorem fuzzy_fallback_spec :
    (∀ intents sim text,
      (routerOf intents).examples = [] ∨ text = "" ∨ trimStr (toLowerStr text) = "" →
      (routerOf intents).infer sim text = (none, 0)) ∧
    (∀ intents sim text, (routerOf intents).examples ≠ [] → text ≠ "" →
      trimStr (toLowerStr text) ≠ "" →
      (((42 : ℚ)/100 ≤ inferScore sim (trimStr (toLowerStr text)) →
        (routerOf intents).infer sim text
          = (some (inferLabel (routerOf intents) sim (trimStr (toLowerStr text))),
              inferScore sim (trimStr (toLowerStr text)))) ∧
       (inferScore sim (trimStr (toLowerStr text)) < (42 : ℚ)/100 →
        (routerOf intents).infer sim text
          = (none, inferScore sim (trimStr (toLowerStr text)))))) ∧
    (∀ (l : List ℚ) (j : Nat), j < l.length → l.getD j 0 ≤ l.getD (argmaxIdx l) 0) ∧
    (∀ env fuel st s,
      regexStage env.intents (toLowerStr (trimStr s)) = none →
      keywordStage env.intents (toLowerStr (trimStr s)) = none →
      env.inferFn (toLowerStr (trimStr s)) = .error () →
      handle_command env fuel st (.str s) = .ok ("unknown", st, [])) :=
  ⟨fun intents sim text h => infer_guard (routerOf intents) sim text h,
   fun intents sim text h1 h2 h3 => infer_threshold (routerOf intents) sim text h1 h2 h3,
   argmaxIdx_le,
   fun env fuel st s h1 h2 h3 => handle_command_router_err env fuel st s h1 h2 h3⟩

/-- Witness for C6: one-example corpus, similarity 0.5 ≥ 0.42, so the
example's label is returned with its score. -/
theorem fuzzy_fallback_spec_witness :
    (routerOf intents6).infer (fun _ => [(1 : ℚ)/2]) "hi there"
      = (some "greet", (1 : ℚ)/2) := by
  have h := (fuzzy_fallback_spec.2.1 intents6 (fun _ => [(1 : ℚ)/2]) "hi there"
    (by decide) (by decide) (by decide)).1
    (by norm_num [inferScore, argmaxIdx])
  exact h

end HFO
